import Mathlib

/-!
Verification of the 6D-CRSM manifold core (`src/manifold/crsm_6d.py`) and the
geodesic agent layer (`src/agents/geodesic_agent.py`).

Shallow embedding conventions:
* Python floats are modelled as exact rationals `ℚ`.  Decimal literals of the
  source (`0.3`, `1e-6`, ...) are read as exact decimal fractions.
* `math.sqrt`, `math.exp` and `math.log` land in `ℝ` (`Real.sqrt`, `Real.exp`,
  `Real.log`); every coordinate-level computation stays in `ℚ`.
* `np.linalg.norm` (an irrational Euclidean norm) is abstracted as an explicit
  function parameter `nrm : Vec6 → ℚ` wherever the source calls it; all
  theorems below hold for every choice of `nrm`.
* `np.clip(x, lo, hi)` is `clip x lo hi = min hi (max lo x)`.
* `np.linalg.inv` has no fallback in the source and raises `LinAlgError` on a
  singular input; `matInv` below returns `det⁻¹ • adjugate`, which agrees with
  the inverse whenever it exists.  The singular case is analysed separately
  through the determinant of the metric (see `MetricTensor_g_singular_...`).
-/

/-! ## Physical constants (module-level constants of `crsm_6d.py`) -/

def LAMBDA_PHI : ℚ := 2.176435e-8

def THETA_LOCK : ℚ := 51.843

def PHI_THRESHOLD : ℚ := 7.6901

def GAMMA_FIXED : ℚ := 0.092

def CHI_PC : ℚ := 0.869

/-! ## ManifoldPoint -/

/-- Six-vector of rational coordinates, indices `0=Λ, 1=Φ, 2=Γ, 3=τ, 4=ε, 5=ψ`. -/
abbrev Vec6 := Fin 6 → ℚ

/-- A point of the manifold: the six fields of the `ManifoldPoint` dataclass. -/
structure ManifoldPoint where
  Lambda : ℚ
  Phi : ℚ
  Gamma : ℚ
  tau : ℚ
  epsilon : ℚ
  psi : ℚ
deriving DecidableEq, Repr

/-- `np.clip(x, lo, hi)`. -/
def clip (x lo hi : ℚ) : ℚ := min hi (max lo x)

/-- The Python constructor: dataclass `__init__` followed by `__post_init__`,
which clamps `Λ, Φ, ε, ψ` into `[0,1]` and `Γ` into `[0.001,1]`; `τ` is stored
unchanged. -/
def ManifoldPoint.make (l f g t e s : ℚ) : ManifoldPoint :=
  { Lambda := clip l 0 1
    Phi := clip f 0 1
    Gamma := clip g 0.001 1
    tau := t
    epsilon := clip e 0 1
    psi := clip s 0 1 }

/-- `ManifoldPoint.to_vector`. -/
def ManifoldPoint.to_vector (p : ManifoldPoint) : Vec6 :=
  ![p.Lambda, p.Phi, p.Gamma, p.tau, p.epsilon, p.psi]

/-- `ManifoldPoint.from_vector` (goes through the clamping constructor). -/
def ManifoldPoint.from_vector (v : Vec6) : ManifoldPoint :=
  ManifoldPoint.make (v 0) (v 1) (v 2) (v 3) (v 4) (v 5)

/-- Derived ratio `Ξ = ΛΦ/Γ`. -/
def ManifoldPoint.xi (p : ManifoldPoint) : ℚ := p.Lambda * p.Phi / p.Gamma

/-- `ManifoldPoint.needs_healing`: decoherence exceeds the threshold `0.3`. -/
def ManifoldPoint.NeedsHealing (p : ManifoldPoint) : Prop := 0.3 < p.Gamma

instance (p : ManifoldPoint) : Decidable p.NeedsHealing :=
  inferInstanceAs (Decidable ((0.3 : ℚ) < p.Gamma))

/-- The domain invariants that `__post_init__` establishes:
`Λ, Φ, ε, ψ ∈ [0,1]` and `Γ ∈ [0.001,1]`.  Note that `τ` is NOT constrained. -/
def ManifoldPoint.Valid (p : ManifoldPoint) : Prop :=
  0 ≤ p.Lambda ∧ p.Lambda ≤ 1 ∧
  0 ≤ p.Phi ∧ p.Phi ≤ 1 ∧
  0.001 ≤ p.Gamma ∧ p.Gamma ≤ 1 ∧
  0 ≤ p.epsilon ∧ p.epsilon ≤ 1 ∧
  0 ≤ p.psi ∧ p.psi ≤ 1

instance (p : ManifoldPoint) : Decidable p.Valid :=
  inferInstanceAs (Decidable (_ ∧ _))

/-! ## MetricTensor -/

/-- Coupling coefficient `lambda_phi_coupling = LAMBDA_PHI * 1e8`. -/
def lambda_phi_coupling : ℚ := LAMBDA_PHI * 1e8

/-- Coupling coefficient `gamma_psi_coupling = GAMMA_FIXED`. -/
def gamma_psi_coupling : ℚ := GAMMA_FIXED

/-- Coupling coefficient `epsilon_lambda_coupling = CHI_PC`. -/
def epsilon_lambda_coupling : ℚ := CHI_PC

/-- `MetricTensor.g(point)`: the position-dependent 6×6 metric.  Written as the
matrix that results from the sequence of assignments in the source (identity,
then the three symmetric couplings, then the `τ` and `Γ` diagonal rescalings). -/
def MetricTensor.g (p : ManifoldPoint) : Matrix (Fin 6) (Fin 6) ℚ :=
  !![1, -lambda_phi_coupling * p.Lambda * p.Phi, 0, 0, -epsilon_lambda_coupling * p.epsilon, 0;
     -lambda_phi_coupling * p.Lambda * p.Phi, 1, 0, 0, 0, 0;
     0, 0, 1 + p.Gamma * 10, 0, 0, gamma_psi_coupling * p.psi;
     0, 0, 0, 1 / (1 + p.Lambda), 0, 0;
     -epsilon_lambda_coupling * p.epsilon, 0, 0, 0, 1, 0;
     0, 0, gamma_psi_coupling * p.psi, 0, 0, 1]

/-- Total stand-in for `np.linalg.inv`: `det⁻¹ • adjugate` equals the matrix
inverse whenever the matrix is invertible.  On a singular input the source
raises `LinAlgError` (this value is then garbage, see the analysis of claim C2). -/
def matInv (A : Matrix (Fin 6) (Fin 6) ℚ) : Matrix (Fin 6) (Fin 6) ℚ :=
  A.det⁻¹ • A.adjugate

/-- `MetricTensor.g_inverse(point)` = `np.linalg.inv(g(point))`. -/
def MetricTensor.g_inverse (p : ManifoldPoint) : Matrix (Fin 6) (Fin 6) ℚ :=
  matInv (MetricTensor.g p)

/-- `MetricTensor.distance_squared(p1, p2)`: contract the coordinate difference
with the metric evaluated at the clamped midpoint. -/
def MetricTensor.distance_squared (p1 p2 : ManifoldPoint) : ℚ :=
  let dx := p2.to_vector - p1.to_vector
  let midpoint := ManifoldPoint.from_vector ((p1.to_vector + p2.to_vector) / 2)
  Matrix.dotProduct dx ((MetricTensor.g midpoint).mulVec dx)

/-- `MetricTensor.distance(p1, p2) = math.sqrt(max(0, distance_squared))`. -/
noncomputable def MetricTensor.distance (p1 p2 : ManifoldPoint) : ℝ :=
  Real.sqrt (max 0 ((MetricTensor.distance_squared p1 p2 : ℚ) : ℝ))

/-! ## ChristoffelSymbols -/

/-- Finite-difference step of `ChristoffelSymbols` (`self._epsilon = 1e-6`). -/
def epsChristoffel : ℚ := 1e-6

/-- Central finite difference `∂_ρ g_μν` at `point` (each perturbed vector goes
through `ManifoldPoint.from_vector`, hence through the clamping constructor,
exactly as in the source). -/
def dgMetric (p : ManifoldPoint) (rho mu nu : Fin 6) : ℚ :=
  (MetricTensor.g (ManifoldPoint.from_vector (p.to_vector + Pi.single rho epsChristoffel)) mu nu -
   MetricTensor.g (ManifoldPoint.from_vector (p.to_vector - Pi.single rho epsChristoffel)) mu nu) /
  (2 * epsChristoffel)

/-- `ChristoffelSymbols.compute(point)[σ, μ, ν]`. -/
def ChristoffelSymbols.compute (p : ManifoldPoint) (sigma mu nu : Fin 6) : ℚ :=
  ∑ rho : Fin 6,
    0.5 * MetricTensor.g_inverse p sigma rho *
      (dgMetric p mu nu rho + dgMetric p nu mu rho - dgMetric p rho mu nu)

/-! ## RiemannCurvature -/

/-- Finite-difference step of `RiemannCurvature` (`self._epsilon = 1e-5`). -/
def epsCurvature : ℚ := 1e-5

/-- Central finite difference `∂_μ Γ^ρ_νσ` of the Christoffel field. -/
def dChristoffel (p : ManifoldPoint) (mu rho nu sigma : Fin 6) : ℚ :=
  (ChristoffelSymbols.compute
     (ManifoldPoint.from_vector (p.to_vector + Pi.single mu epsCurvature)) rho nu sigma -
   ChristoffelSymbols.compute
     (ManifoldPoint.from_vector (p.to_vector - Pi.single mu epsCurvature)) rho nu sigma) /
  (2 * epsCurvature)

/-- `RiemannCurvature.riemann_tensor(point)[ρ, σ, μ, ν]`. -/
def RiemannCurvature.riemann_tensor (p : ManifoldPoint) (rho sigma mu nu : Fin 6) : ℚ :=
  dChristoffel p mu rho nu sigma - dChristoffel p nu rho mu sigma +
    ∑ lam : Fin 6,
      (ChristoffelSymbols.compute p rho mu lam * ChristoffelSymbols.compute p lam nu sigma -
       ChristoffelSymbols.compute p rho nu lam * ChristoffelSymbols.compute p lam mu sigma)

/-- `RiemannCurvature.ricci_tensor(point)[μ, ν] = R^ρ_μρν`. -/
def RiemannCurvature.ricci_tensor (p : ManifoldPoint) (mu nu : Fin 6) : ℚ :=
  ∑ rho : Fin 6, RiemannCurvature.riemann_tensor p rho mu rho nu

/-- `RiemannCurvature.scalar_curvature(point) = g^μν R_μν`. -/
def RiemannCurvature.scalar_curvature (p : ManifoldPoint) : ℚ :=
  ∑ mu : Fin 6, ∑ nu : Fin 6,
    MetricTensor.g_inverse p mu nu * RiemannCurvature.ricci_tensor p mu nu

/-- `RiemannCurvature.curvature_gradient(point)`: forward finite-difference
gradient of the scalar curvature (step `1e-5`). -/
def RiemannCurvature.curvature_gradient (p : ManifoldPoint) : Vec6 :=
  fun i =>
    (RiemannCurvature.scalar_curvature
       (ManifoldPoint.from_vector (p.to_vector + Pi.single i epsCurvature)) -
     RiemannCurvature.scalar_curvature p) / epsCurvature

/-- `CRSM6D.decoherence_field(point) = Γ * (1 + |R| * 0.1)`. -/
def CRSM6D.decoherence_field (p : ManifoldPoint) : ℚ :=
  p.Gamma * (1 + |RiemannCurvature.scalar_curvature p| * 0.1)

/-- `CRSM6D.coherence_potential(point) = -log(max(0.001, Ξ)) + 0.1 * |R|`. -/
noncomputable def CRSM6D.coherence_potential (p : ManifoldPoint) : ℝ :=
  -Real.log (max 0.001 ((p.xi : ℚ) : ℝ)) + 0.1 * |((RiemannCurvature.scalar_curvature p : ℚ) : ℝ)|

/-! ## GeodesicSolver -/

/-- `GeodesicSolver.geodesic_acceleration`: `a^μ = -Γ^μ_νσ v^ν v^σ` at the
(clamped) point rebuilt from the raw position vector. -/
def GeodesicSolver.geodesic_acceleration (position velocity : Vec6) : Vec6 :=
  fun mu =>
    -∑ nu : Fin 6, ∑ sigma : Fin 6,
      ChristoffelSymbols.compute (ManifoldPoint.from_vector position) mu nu sigma *
        velocity nu * velocity sigma

/-- The clamp applied after each RK4 step: indices `0..2` (`Λ,Φ,Γ`) into
`[0.001, 1]`, indices `4..5` (`ε,ψ`) into `[0,1]`, index `3` (`τ`) untouched. -/
def clampX (x : Vec6) : Vec6 :=
  fun i => if i.val ≤ 2 then clip (x i) 0.001 1
           else if 4 ≤ i.val then clip (x i) 0 1
           else x i

/-- One RK4 step of the second-order geodesic ODE followed by the domain clamp
on the position (the velocity is not clamped, as in the source). -/
def rk4Step (x v : Vec6) (dt : ℚ) : Vec6 × Vec6 :=
  let k1x := v
  let k1v := GeodesicSolver.geodesic_acceleration x v
  let k2x := v + (0.5 * dt) • k1v
  let k2v := GeodesicSolver.geodesic_acceleration (x + (0.5 * dt) • k1x) (v + (0.5 * dt) • k1v)
  let k3x := v + (0.5 * dt) • k2v
  let k3v := GeodesicSolver.geodesic_acceleration (x + (0.5 * dt) • k2x) (v + (0.5 * dt) • k2v)
  let k4x := v + dt • k3v
  let k4v := GeodesicSolver.geodesic_acceleration (x + dt • k3x) (v + dt • k3v)
  let x' := x + (dt / 6) • (k1x + (2 : ℚ) • k2x + (2 : ℚ) • k3x + k4x)
  let v' := v + (dt / 6) • (k1v + (2 : ℚ) • k2v + (2 : ℚ) • k3v + k4v)
  (clampX x', v')

/-- The points appended by the integration loop after the initial point. -/
def integrateSteps (x v : Vec6) (dt : ℚ) : ℕ → List Vec6
  | 0 => []
  | k + 1 =>
    let s := rk4Step x v dt
    s.1 :: integrateSteps s.1 s.2 dt k

/-- `GeodesicSolver._integrate(x0, v0, num_steps, dt)`: the path starts with
`x0` and gains one (clamped) point per RK4 step. -/
def GeodesicSolver.integrate (x0 v0 : Vec6) (num_steps : ℕ) (dt : ℚ) : List Vec6 :=
  x0 :: integrateSteps x0 v0 dt num_steps

/-- The shooting loop of `GeodesicSolver.solve`, parametrised by the vector
norm `nrm` (`np.linalg.norm`).  `fuel` counts the remaining outer iterations;
the loop breaks when the endpoint error norm drops below `1e-4`, otherwise it
nudges the trial velocity by `0.5 · error` and retries.  The source loop binds
`path` only inside the loop body, so `max_iterations ≥ 1` is assumed (with
`max_iterations ≤ 0` the Python code raises `NameError`); the `0` case below
is unreachable from `GeodesicSolver.solve` with a positive budget. -/
def solveAux (nrm : Vec6 → ℚ) (x0 xf : Vec6) (num_steps : ℕ) (dt : ℚ) :
    ℕ → Vec6 → List Vec6
  | 0, v0 => GeodesicSolver.integrate x0 v0 num_steps dt
  | fuel + 1, v0 =>
    let path := GeodesicSolver.integrate x0 v0 num_steps dt
    let err := xf - path.getLastD x0
    if nrm err < 1e-4 then path
    else if fuel = 0 then path
    else solveAux nrm x0 xf num_steps dt fuel (v0 + (0.5 : ℚ) • err)

/-- `GeodesicSolver.solve(start, end, num_steps, max_iterations)`: run the
shooting loop and convert the final raw path to `ManifoldPoint`s.  The return
value is only this list of points; the convergence outcome of the loop is not
part of it. -/
def GeodesicSolver.solve (nrm : Vec6 → ℚ) (start goal : ManifoldPoint)
    (num_steps max_iterations : ℕ) : List ManifoldPoint :=
  let x0 := start.to_vector
  let xf := goal.to_vector
  (solveAux nrm x0 xf num_steps (1 / (num_steps : ℚ)) max_iterations (xf - x0)).map
    ManifoldPoint.from_vector

/-! ## WassersteinTransport -/

/-- The Sinkhorn loop of `w2_distance`: in each pass the row scaling `u` is
recomputed from the current `v`, then the column scaling `v` from the fresh
`u` (`u = sw / (K @ v)`; `v = tw / (K.T @ u)`). -/
noncomputable def sinkhornLoop {n m : ℕ} (K : Matrix (Fin n) (Fin m) ℝ)
    (sw : Fin n → ℝ) (tw : Fin m → ℝ) :
    ℕ → (Fin n → ℝ) × (Fin m → ℝ) → (Fin n → ℝ) × (Fin m → ℝ)
  | 0, uv => uv
  | k + 1, uv =>
    let u := fun i => sw i / ∑ j : Fin m, K i j * uv.2 j
    let v := fun j => tw j / ∑ i : Fin n, K i j * u i
    sinkhornLoop K sw tw k (u, v)

/-- `WassersteinTransport.w2_distance`: cost matrix of pairwise squared
distances, kernel `K = exp(-C/0.1)`, 100 Sinkhorn passes from all-ones
scalings, transport plan `P = diag(u) K diag(v)`, result `sqrt(Σ P∘C)`. -/
noncomputable def WassersteinTransport.w2_distance {n m : ℕ}
    (source_points : Fin n → ManifoldPoint) (source_weights : Fin n → ℝ)
    (target_points : Fin m → ManifoldPoint) (target_weights : Fin m → ℝ) : ℝ :=
  let C : Matrix (Fin n) (Fin m) ℝ :=
    Matrix.of fun i j =>
      ((MetricTensor.distance_squared (source_points i) (target_points j) : ℚ) : ℝ)
  let K : Matrix (Fin n) (Fin m) ℝ := Matrix.of fun i j => Real.exp (-C i j / 0.1)
  let uv := sinkhornLoop K source_weights target_weights 100 (fun _ => 1, fun _ => 1)
  Real.sqrt (∑ i : Fin n, ∑ j : Fin m, (uv.1 i * K i j * uv.2 j) * C i j)

/-- Modelled from the spec (§4.5 of the natural-language specification), for
comparison with `WassersteinTransport.w2_distance`: one alternating Sinkhorn
scaling update as a step function. -/
noncomputable def sinkhornStepSpec {n m : ℕ} (K : Matrix (Fin n) (Fin m) ℝ)
    (sw : Fin n → ℝ) (tw : Fin m → ℝ)
    (uv : (Fin n → ℝ) × (Fin m → ℝ)) : (Fin n → ℝ) × (Fin m → ℝ) :=
  let u := fun i => sw i / ∑ j : Fin m, K i j * uv.2 j
  let v := fun j => tw j / ∑ i : Fin n, K i j * u i
  (u, v)

/-- Modelled from the spec (§4.5): the value `sqrt(Σ P∘C)` with the transport
plan written literally as the matrix product `diag(u)·K·diag(v)` and `(u, v)`
the 100-fold iterate of the scaling step from all-ones vectors. -/
noncomputable def w2SpecValue {n m : ℕ}
    (source_points : Fin n → ManifoldPoint) (source_weights : Fin n → ℝ)
    (target_points : Fin m → ManifoldPoint) (target_weights : Fin m → ℝ) : ℝ :=
  let C : Matrix (Fin n) (Fin m) ℝ :=
    Matrix.of fun i j =>
      ((MetricTensor.distance_squared (source_points i) (target_points j) : ℚ) : ℝ)
  let K : Matrix (Fin n) (Fin m) ℝ := Matrix.of fun i j => Real.exp (-C i j / 0.1)
  let uv := (sinkhornStepSpec K source_weights target_weights)^[100] (fun _ => 1, fun _ => 1)
  let P := Matrix.diagonal uv.1 * K * Matrix.diagonal uv.2
  Real.sqrt (∑ i : Fin n, ∑ j : Fin m, P i j * C i j)

/-! ## Agent layer (`geodesic_agent.py`) -/

/-- The `AgentState` enum. -/
inductive AgentState where
  | dormant
  | sensing
  | navigating
  | healing
  | evolving
  | converged
deriving DecidableEq, Repr

/-- The mutable fields of `GeodesicAgent` that the embedded operations read or
write (identifier, pole, lock and the timestamped state history are omitted:
no claim mentions them). -/
structure Agent where
  position : ManifoldPoint
  velocity : Vec6
  target : Option ManifoldPoint
  path : List ManifoldPoint
  pathIndex : ℕ
  state : AgentState
  trajectory : List ManifoldPoint
  generation : ℕ
  fitness : ℚ
  mutationRate : ℚ
  totalDistance : ℝ
  healingCount : ℕ
  evolutionCount : ℕ

/-- `GeodesicAgent.__init__` with a given initial position. -/
def Agent.init (p : ManifoldPoint) : Agent :=
  { position := p
    velocity := fun _ => 0
    target := none
    path := []
    pathIndex := 0
    state := .dormant
    trajectory := [p]
    generation := 0
    fitness := 1
    mutationRate := 0.03
    totalDistance := 0
    healingCount := 0
    evolutionCount := 0 }

/-- The healing transform of `GeodesicAgent._heal` applied to the position:
the new point goes through the clamping constructor. -/
def healPoint (p : ManifoldPoint) : ManifoldPoint :=
  let old_gamma := p.Gamma
  let new_gamma := old_gamma * (1 - CHI_PC)
  let new_lambda := min 1 (p.Lambda / max 0.01 old_gamma)
  let new_psi := min 1 (max 0 (1 - p.psi + CHI_PC))
  ManifoldPoint.make new_lambda
    (p.Phi * CHI_PC + (1 - CHI_PC) * PHI_THRESHOLD / 10)
    new_gamma (p.tau + 0.01) p.epsilon new_psi

/-- `GeodesicAgent._heal`: state becomes `HEALING`, the healing counter is
bumped, the position is replaced by its healed image and appended to the
trajectory.  `force_heal` is the same operation. -/
def Agent.heal (a : Agent) : Agent :=
  let p' := healPoint a.position
  { a with state := .healing, healingCount := a.healingCount + 1,
           position := p', trajectory := a.trajectory ++ [p'] }

/-- `GeodesicAgent._evolve` with the vector of `np.random.randn(6)` draws made
explicit: `mutation = noise * mutation_rate`, then `mutation[0] += 0.01` and
`mutation[2] -= 0.01`, and the perturbed vector is re-clamped by
`from_vector`. -/
def Agent.evolveUpdate (a : Agent) (noise : Vec6) : Agent :=
  let mutation : Vec6 := fun i =>
    noise i * a.mutationRate + (if i = 0 then 0.01 else 0) + (if i = 2 then -0.01 else 0)
  let p' := ManifoldPoint.from_vector (a.position.to_vector + mutation)
  { a with state := .evolving, evolutionCount := a.evolutionCount + 1,
           generation := a.generation + 1, position := p',
           fitness := p'.xi / PHI_THRESHOLD }

/-- `GeodesicAgent.set_target`: store the target, compute a 50-step geodesic
from the current position (`CRSM6D.find_geodesic` forwards to
`GeodesicSolver.solve` with its default outer budget of 50), reset the path
index and switch to `NAVIGATING`. -/
def Agent.set_target (nrm : Vec6 → ℚ) (a : Agent) (t : ManifoldPoint) : Agent :=
  { a with target := some t,
           path := GeodesicSolver.solve nrm a.position t 50 50,
           pathIndex := 0,
           state := .navigating }

/-- `GeodesicAgent.step`, with the two random draws of the source passed
explicitly (`randDraw` for `np.random.random()`, `noise` for
`np.random.randn(6)`).  Branch order as in the source: healing check first,
then the no-path / exhausted-path check, then the advance. -/
noncomputable def Agent.step (a : Agent) (randDraw : ℚ) (noise : Vec6) : Bool × Agent :=
  if a.position.NeedsHealing then (true, a.heal)
  else if a.path = [] ∨ a.path.length - 1 ≤ a.pathIndex then
    (false, { a with state := .converged })
  else
    let old := a.position
    let idx := a.pathIndex + 1
    let pos' := a.path.getD idx old
    let a' := { a with pathIndex := idx, position := pos',
                       velocity := pos'.to_vector - old.to_vector,
                       totalDistance := a.totalDistance + MetricTensor.distance old pos',
                       trajectory := a.trajectory ++ [pos'] }
    if randDraw < a.mutationRate then (true, a'.evolveUpdate noise) else (true, a')

/-- One pass of `GeodesicAgent.flee_high_curvature`: move a small step opposite
to the curvature gradient, normalised by `nrm grad + 1e-8`. -/
def Agent.fleeOnce (nrm : Vec6 → ℚ) (a : Agent) : Agent :=
  let grad := RiemannCurvature.curvature_gradient a.position
  let direction : Vec6 := (-(1 : ℚ) / (nrm grad + 1e-8)) • grad
  let p' := ManifoldPoint.from_vector (a.position.to_vector + (0.05 : ℚ) • direction)
  { a with position := p', trajectory := a.trajectory ++ [p'] }

/-- `GeodesicAgent.flee_high_curvature(steps)`. -/
def Agent.flee (nrm : Vec6 → ℚ) (a : Agent) : ℕ → Agent
  | 0 => a
  | k + 1 => Agent.flee nrm (a.fleeOnce nrm) k

/-- `GeodesicAgent.evolve_step` for a concrete autopoietic operator `op`. -/
def Agent.evolve_step (a : Agent) (op : ManifoldPoint → ManifoldPoint) : Agent :=
  let p' := op a.position
  { a with position := p', generation := a.generation + 1,
           trajectory := a.trajectory ++ [p'] }

/-- `AURAAgent.autopoietic_operator`. -/
def auraOperator (p : ManifoldPoint) : ManifoldPoint :=
  let delta_phi := 0.01 * (p.Lambda - p.Gamma)
  let new_phi := min 1 (max 0 (p.Phi + delta_phi))
  ManifoldPoint.make (p.Lambda * 0.99 + 0.01 * new_phi) new_phi p.Gamma
    (p.tau + LAMBDA_PHI) p.epsilon (p.psi * 0.99 + 0.01)

/-- `AIDENAgent.autopoietic_operator`. -/
def aidenOperator (p : ManifoldPoint) : ManifoldPoint :=
  let xi_ratio := p.xi / PHI_THRESHOLD
  let delta_lambda := 0.01 * (xi_ratio - 1)
  let new_lambda := min 1 (max 0 (p.Lambda + delta_lambda))
  let new_gamma := max 0.01 (p.Gamma * 0.99)
  ManifoldPoint.make new_lambda p.Phi new_gamma (p.tau + LAMBDA_PHI * 10)
    (min 1 (p.epsilon * 1.01)) p.psi

/-- The snapshot produced by `GeodesicAgent.sense_curvature`. -/
structure CurvatureSense where
  scalar_curvature : ℚ
  curvature_gradient : Vec6
  decoherence_field : ℚ
  coherence_potential : ℝ
  is_coherent : Bool
  needs_healing : Bool

/-- The curvature snapshot at a point (the pure part of `sense_curvature`). -/
noncomputable def senseCurvature (p : ManifoldPoint) : CurvatureSense :=
  { scalar_curvature := RiemannCurvature.scalar_curvature p
    curvature_gradient := RiemannCurvature.curvature_gradient p
    decoherence_field := CRSM6D.decoherence_field p
    coherence_potential := CRSM6D.coherence_potential p
    is_coherent := decide (PHI_THRESHOLD ≤ p.xi)
    needs_healing := decide p.NeedsHealing }

/-- `CurvatureSense.danger_level`. -/
def CurvatureSense.danger_level (s : CurvatureSense) : ℚ :=
  min 1 (s.decoherence_field + |s.scalar_curvature| * 0.1)

/-- `round(x, 2)` used for the observer's manifold-map keys.  Python rounds
half to even; the embedding rounds half up — the two agree except at exact
`.xx5` ties, and no claim depends on the map. -/
def roundq2 (x : ℚ) : ℚ := ((⌊x * 100 + 1 / 2⌋ : ℤ) : ℚ) / 100

/-- The extra observer state of `AURAAgent`. -/
structure AURAAgent where
  agent : Agent
  observations : List CurvatureSense
  manifold_map : List ((ℚ × ℚ × ℚ) × ℚ)

/-- `AURAAgent.observe`: sense (which re-enters the `SENSING` state), record
the observation, and store the scalar curvature under the rounded
`(Λ, Φ, Γ)` key (dict overwrite is modelled by dropping the old binding). -/
noncomputable def AURAAgent.observe (A : AURAAgent) : CurvatureSense × AURAAgent :=
  let sense := senseCurvature A.agent.position
  let key := (roundq2 A.agent.position.Lambda, roundq2 A.agent.position.Phi,
              roundq2 A.agent.position.Gamma)
  (sense,
   { agent := { A.agent with state := .sensing }
     observations := A.observations ++ [sense]
     manifold_map := (key, sense.scalar_curvature) ::
       A.manifold_map.filter (fun e => decide (e.1 ≠ key)) })

/-- The coupled AURA|AIDEN pair (`AURAIDENSystem`). -/
structure AURAIDENSystem where
  aura : AURAAgent
  aiden : Agent
  coupling_strength : ℚ
  synchronization_history : List ℝ

/-- `AURAIDENSystem._apply_coupling`: the difference of the two positions is
computed once, before either update, and applied with opposite signs; both
updated vectors are re-clamped by `from_vector`. -/
def AURAIDENSystem.apply_coupling (s : AURAIDENSystem) : AURAIDENSystem :=
  let diff := s.aiden.position.to_vector - s.aura.agent.position.to_vector
  let aura_vec := s.aura.agent.position.to_vector + (s.coupling_strength * 0.1) • diff
  let aiden_vec := s.aiden.position.to_vector - (s.coupling_strength * 0.1) • diff
  { s with
    aura := { s.aura with
              agent := { s.aura.agent with position := ManifoldPoint.from_vector aura_vec } }
    aiden := { s.aiden with position := ManifoldPoint.from_vector aiden_vec } }

/-- The system state after the first three sub-steps of `coupled_step`
(AURA observes, AIDEN reacts by heal / flee / evolve, AURA evolves) and
before `_apply_coupling` runs: its two positions are exactly the pre-update
positions from which the coupling difference is computed. -/
noncomputable def AURAIDENSystem.preCoupling (nrm : Vec6 → ℚ)
    (s : AURAIDENSystem) : AURAIDENSystem :=
  let ob := s.aura.observe
  let aiden1 :=
    if ob.1.needs_healing then s.aiden.heal
    else if 0.5 < ob.1.danger_level then s.aiden.flee nrm 3
    else s.aiden.evolve_step aidenOperator
  let aura2 := { ob.2 with agent := ob.2.agent.evolve_step auraOperator }
  { s with aura := aura2, aiden := aiden1 }

/-- `AURAIDENSystem.coupled_step`: AURA observes; AIDEN reacts (heal / flee /
evolve); AURA evolves; the coupling is applied; the synchronization score
`exp(-distance)` of the post-coupling positions is recorded and returned. -/
noncomputable def AURAIDENSystem.coupled_step (nrm : Vec6 → ℚ)
    (s : AURAIDENSystem) : ℝ × AURAIDENSystem :=
  let ob := s.aura.observe
  let aiden1 :=
    if ob.1.needs_healing then s.aiden.heal
    else if 0.5 < ob.1.danger_level then s.aiden.flee nrm 3
    else s.aiden.evolve_step aidenOperator
  let aura2 := { ob.2 with agent := ob.2.agent.evolve_step auraOperator }
  let s2 := AURAIDENSystem.apply_coupling
    { s with aura := aura2, aiden := aiden1 }
  let sync := Real.exp (-(MetricTensor.distance s2.aura.agent.position s2.aiden.position))
  (sync, { s2 with synchronization_history := s2.synchronization_history ++ [sync] })

/-! ## Verification predicates and concrete sample inputs -/

/-- The clamp established by `GeodesicSolver._integrate` on raw path vectors:
indices `0..2` in `[0.001, 1]`, indices `4..5` in `[0, 1]`. -/
def ClampedVec (x : Vec6) : Prop :=
  ∀ i : Fin 6,
    (i.val ≤ 2 → 0.001 ≤ x i ∧ x i ≤ 1) ∧
    (4 ≤ i.val → 0 ≤ x i ∧ x i ≤ 1)

/-- A concrete computable stand-in for `np.linalg.norm` used to instantiate
the abstract norm parameter on sample inputs (the theorems hold for every
norm function). -/
def nrmAbs : Vec6 → ℚ := fun v => ∑ i : Fin 6, |v i|

/-- A point at which the metric is exactly singular:
`Λ = 1`, `Φ = 10^6/2176435` makes the `ΛΦ` coupling entry equal to `-1`,
and `ε = 0` decouples the `(ε,Λ)` cell, so rows `0` and `1` of `g` are
negatives of each other up to permutation. -/
def pSing : ManifoldPoint := ManifoldPoint.make 1 (1000000 / 2176435) 0.1 0 0 0.5

/-- A nonzero kernel vector of `g pSing`. -/
def vKer : Vec6 := ![1, 1, 0, 0, 0, 0]

/-- A six-vector with a negative proper-time entry. -/
def vNegTau : Vec6 := ![0.5, 0.5, 0.5, -1, 0.5, 0.5]

/-- A valid point with `Λ = 0` (the constructor accepts it unchanged). -/
def pLam0 : ManifoldPoint := ManifoldPoint.make 0 0.5 0.5 0 0.5 0.5

/-- A generic well-behaved target point. -/
def pGoal : ManifoldPoint := ManifoldPoint.make 0.9 0.9 0.1 0 0.9 0.9

/-- A valid point sitting on the lower `Γ` clamp `0.001`. -/
def pGammaMin : ManifoldPoint := ManifoldPoint.make 0.5 0.5 0.001 0 0.5 0.5

/-- A valid point with `Γ = 0.5`, i.e. in the healing regime. -/
def pHealDemo : ManifoldPoint := ManifoldPoint.make 0.5 0.5 0.5 0 0.5 0.5

/-- A freshly initialised agent whose position needs healing (`Γ = 0.5`). -/
def agentHot : Agent := Agent.init pHealDemo

/-- `agentHot` right after `set_target`: it owns a 51-point geodesic path and
`path_index = 0`. -/
def agentHotTargeted : Agent := agentHot.set_target nrmAbs pGoal

/-- A healthy agent with no path (its `step()` lands in the converge branch). -/
def agentDone : Agent := Agent.init pGoal

/-! ## Helper lemmas -/

theorem clip_mem (x lo hi : ℚ) (h : lo ≤ hi) : lo ≤ clip x lo hi ∧ clip x lo hi ≤ hi :=
  ⟨le_min h (le_max_left lo x), min_le_left hi (max lo x)⟩

theorem clip_eq_self (x lo hi : ℚ) (h1 : lo ≤ x) (h2 : x ≤ hi) : clip x lo hi = x := by
  unfold clip
  rw [max_eq_right h1, min_eq_right h2]

theorem clip_eq_lo (x lo hi : ℚ) (h1 : x ≤ lo) (h2 : lo ≤ hi) : clip x lo hi = lo := by
  unfold clip
  rw [max_eq_left h1, min_eq_right h2]

theorem cons_val_five {α : Type} (x : α) (u : Fin 5 → α) :
    Matrix.vecCons x u 5 =
      Matrix.vecHead (Matrix.vecTail (Matrix.vecTail (Matrix.vecTail (Matrix.vecTail u)))) :=
  rfl

theorem make_valid (l f g t e s : ℚ) : (ManifoldPoint.make l f g t e s).Valid := by
  have h01 : (0 : ℚ) ≤ 1 := by norm_num
  have h001 : (0.001 : ℚ) ≤ 1 := by norm_num
  exact ⟨(clip_mem l 0 1 h01).1, (clip_mem l 0 1 h01).2,
         (clip_mem f 0 1 h01).1, (clip_mem f 0 1 h01).2,
         (clip_mem g 0.001 1 h001).1, (clip_mem g 0.001 1 h001).2,
         (clip_mem e 0 1 h01).1, (clip_mem e 0 1 h01).2,
         (clip_mem s 0 1 h01).1, (clip_mem s 0 1 h01).2⟩

theorem from_vector_valid (v : Vec6) : (ManifoldPoint.from_vector v).Valid :=
  make_valid (v 0) (v 1) (v 2) (v 3) (v 4) (v 5)

theorem valid_from_to (p : ManifoldPoint) (h : p.Valid) :
    ManifoldPoint.from_vector p.to_vector = p := by
  obtain ⟨h1, h2, h3, h4, h5, h6, h7, h8, h9, h10⟩ := h
  show ManifoldPoint.make (p.to_vector 0) (p.to_vector 1) (p.to_vector 2)
      (p.to_vector 3) (p.to_vector 4) (p.to_vector 5) = p
  have e0 : p.to_vector 0 = p.Lambda := rfl
  have e1 : p.to_vector 1 = p.Phi := rfl
  have e2 : p.to_vector 2 = p.Gamma := rfl
  have e3 : p.to_vector 3 = p.tau := rfl
  have e4 : p.to_vector 4 = p.epsilon := rfl
  have e5 : p.to_vector 5 = p.psi := rfl
  rw [e0, e1, e2, e3, e4, e5]
  unfold ManifoldPoint.make
  rw [clip_eq_self _ _ _ h1 h2, clip_eq_self _ _ _ h3 h4, clip_eq_self _ _ _ h5 h6,
      clip_eq_self _ _ _ h7 h8, clip_eq_self _ _ _ h9 h10]

theorem clampX_clamped (x : Vec6) : ClampedVec (clampX x) := by
  intro i
  constructor
  · intro h2
    unfold clampX
    rw [if_pos h2]
    exact clip_mem _ _ _ (by norm_num)
  · intro h4
    unfold clampX
    have hn : ¬ i.val ≤ 2 := by omega
    rw [if_neg hn, if_pos h4]
    exact clip_mem _ _ _ (by norm_num)

theorem rk4Step_fst_clamped (x v : Vec6) (dt : ℚ) : ClampedVec (rk4Step x v dt).1 :=
  clampX_clamped _

theorem integrateSteps_length (n : ℕ) :
    ∀ (x v : Vec6) (dt : ℚ), (integrateSteps x v dt n).length = n := by
  induction n with
  | zero => intro x v dt; rfl
  | succ k ih =>
    intro x v dt
    show ((rk4Step x v dt).1 :: integrateSteps (rk4Step x v dt).1 (rk4Step x v dt).2 dt k).length = k + 1
    rw [List.length_cons, ih]

theorem integrateSteps_mem_clamped (n : ℕ) :
    ∀ (x v : Vec6) (dt : ℚ) (y : Vec6), y ∈ integrateSteps x v dt n → ClampedVec y := by
  induction n with
  | zero => intro x v dt y hy; cases hy
  | succ k ih =>
    intro x v dt y hy
    rcases List.mem_cons.mp hy with h | h
    · rw [h]; exact rk4Step_fst_clamped x v dt
    · exact ih _ _ _ _ h

theorem integrate_length (x0 v0 : Vec6) (n : ℕ) (dt : ℚ) :
    (GeodesicSolver.integrate x0 v0 n dt).length = n + 1 := by
  unfold GeodesicSolver.integrate
  rw [List.length_cons, integrateSteps_length]

theorem solveAux_eq_integrate (nrm : Vec6 → ℚ) (x0 xf : Vec6) (n : ℕ) (dt : ℚ) :
    ∀ (fuel : ℕ) (v0 : Vec6),
      ∃ v', solveAux nrm x0 xf n dt fuel v0 = GeodesicSolver.integrate x0 v' n dt := by
  intro fuel
  induction fuel with
  | zero => intro v0; exact ⟨v0, rfl⟩
  | succ k ih =>
    intro v0
    unfold solveAux
    dsimp only
    split
    · exact ⟨v0, rfl⟩
    · split
      · exact ⟨v0, rfl⟩
      · exact ih _

theorem solve_shape (nrm : Vec6 → ℚ) (s g : ManifoldPoint) (n m : ℕ) :
    ∃ v', GeodesicSolver.solve nrm s g n m =
      (GeodesicSolver.integrate s.to_vector v' n (1 / (n : ℚ))).map ManifoldPoint.from_vector := by
  obtain ⟨v', h⟩ :=
    solveAux_eq_integrate nrm s.to_vector g.to_vector n (1 / (n : ℚ)) m
      (g.to_vector - s.to_vector)
  refine ⟨v', ?_⟩
  unfold GeodesicSolver.solve
  dsimp only
  rw [h]

theorem solve_length (nrm : Vec6 → ℚ) (s g : ManifoldPoint) (n m : ℕ) :
    (GeodesicSolver.solve nrm s g n m).length = n + 1 := by
  obtain ⟨v', h⟩ := solve_shape nrm s g n m
  rw [h, List.length_map, integrate_length]

theorem solve_head (nrm : Vec6 → ℚ) (s g : ManifoldPoint) (n m : ℕ) :
    (GeodesicSolver.solve nrm s g n m).head? = some (ManifoldPoint.from_vector s.to_vector) := by
  obtain ⟨v', h⟩ := solve_shape nrm s g n m
  rw [h]
  rfl

theorem solve_tail_clamped (nrm : Vec6 → ℚ) (s g : ManifoldPoint) (n m : ℕ) :
    ∀ p ∈ (GeodesicSolver.solve nrm s g n m).tail,
      ∃ y, ClampedVec y ∧ p = ManifoldPoint.from_vector y := by
  obtain ⟨v', h⟩ := solve_shape nrm s g n m
  rw [h]
  unfold GeodesicSolver.integrate
  rw [List.map_cons, List.tail_cons]
  intro p hp
  obtain ⟨y, hy, hpy⟩ := List.mem_map.mp hp
  exact ⟨y, integrateSteps_mem_clamped n _ _ _ y hy, hpy.symm⟩

/-! ## Claim theorems -/

/-- C1: `GeodesicSolver.solve` is claimed to surface non-convergence to the
caller.  In the code the return value of `solve` is, for every input and
whichever way the shooting loop ends (tolerance reached or budget exhausted),
nothing but the raw integration path of the final iteration mapped through
`from_vector`: no convergence indication of any kind is part of the result. -/
theorem C1_solve_result_is_bare_integration_path
    (nrm : Vec6 → ℚ) (s g : ManifoldPoint) (n m : ℕ) :
    ∃ v', GeodesicSolver.solve nrm s g n m =
      (GeodesicSolver.integrate s.to_vector v' n (1 / (n : ℚ))).map ManifoldPoint.from_vector :=
  solve_shape nrm s g n m

/-- C3 counterexample: deserialising a vector with `τ = -1` yields a point the
core accepts whose `τ` is negative, refuting the claimed invariant `τ ≥ 0`. -/
theorem C3_counterexample_negative_tau :
    (ManifoldPoint.from_vector vNegTau).tau = -1 ∧
    ¬ (0 ≤ (ManifoldPoint.from_vector vNegTau).tau) := by
  decide

/-- C3 amended: after construction and after each core mutation (deserialise,
heal, evolve, couple) the clamped invariants `Λ, Φ, ε, ψ ∈ [0,1]` and
`Γ ∈ [0.001,1]` hold; `τ` is passed through unclamped. -/
theorem C3_invariants_after_core_mutations (l f g t e s' : ℚ) (v : Vec6)
    (p : ManifoldPoint) (a : Agent) (noise : Vec6) (sys : AURAIDENSystem) :
    (ManifoldPoint.make l f g t e s').Valid ∧
    (ManifoldPoint.from_vector v).Valid ∧
    (healPoint p).Valid ∧
    ((a.evolveUpdate noise).position).Valid ∧
    ((sys.apply_coupling).aura.agent.position).Valid ∧
    ((sys.apply_coupling).aiden.position).Valid :=
  ⟨make_valid l f g t e s', from_vector_valid v, make_valid _ _ _ _ _ _,
   from_vector_valid _, from_vector_valid _, from_vector_valid _⟩

/-- C5 counterexample: at the lower decoherence clamp `Γ₀ = 0.001` (a valid
point with `Γ₀ > 0`) the healed `Γ` is re-clamped back up to `0.001`, so the
healing transform is not strictly decreasing there. -/
theorem C5_counterexample_gamma_floor :
    0 < pGammaMin.Gamma ∧ (healPoint pGammaMin).Gamma = pGammaMin.Gamma ∧
    ¬ ((healPoint pGammaMin).Gamma < pGammaMin.Gamma) := by
  have h1 : pGammaMin.Gamma = 0.001 := by
    show clip (0.001 : ℚ) 0.001 1 = 0.001
    exact clip_eq_self _ _ _ le_rfl (by norm_num)
  have h2 : (healPoint pGammaMin).Gamma = 0.001 := by
    show clip (pGammaMin.Gamma * (1 - CHI_PC)) 0.001 1 = 0.001
    rw [h1]
    exact clip_eq_lo _ _ _ (by norm_num [CHI_PC]) (by norm_num)
  refine ⟨by rw [h1]; norm_num, by rw [h1, h2], by rw [h1, h2]; exact lt_irrefl _⟩

/-- C5 amended: for every point that actually triggers healing
(`Γ₀ > 0.3`, and `Γ₀ ≤ 1` as the invariants guarantee) the constructor clamp
is inactive, the healed decoherence equals `Γ₀·(1 − CHI_PC)` exactly, and it
satisfies `0 < Γ_new < Γ₀`. -/
theorem C5_heal_strictly_decreases_gamma (p : ManifoldPoint)
    (h1 : 0.3 < p.Gamma) (h2 : p.Gamma ≤ 1) :
    (healPoint p).Gamma = p.Gamma * (1 - CHI_PC) ∧
    0 < (healPoint p).Gamma ∧
    (healPoint p).Gamma < p.Gamma := by
  have hchi : (1 : ℚ) - CHI_PC = 0.131 := by norm_num [CHI_PC]
  have hlow : (0.001 : ℚ) ≤ p.Gamma * (1 - CHI_PC) := by rw [hchi]; nlinarith
  have hhigh : p.Gamma * (1 - CHI_PC) ≤ 1 := by rw [hchi]; nlinarith
  have hg : (healPoint p).Gamma = p.Gamma * (1 - CHI_PC) := by
    show clip (p.Gamma * (1 - CHI_PC)) 0.001 1 = p.Gamma * (1 - CHI_PC)
    exact clip_eq_self _ _ _ hlow hhigh
  refine ⟨hg, ?_, ?_⟩
  · rw [hg, hchi]; nlinarith
  · rw [hg, hchi]; nlinarith

/-- Witness for the amended C5 at the concrete healing-regime point
`Γ₀ = 0.5`. -/
theorem C5_heal_strictly_decreases_gamma_witness :
    (0.3 : ℚ) < pHealDemo.Gamma ∧ pHealDemo.Gamma ≤ 1 ∧
    ((healPoint pHealDemo).Gamma = pHealDemo.Gamma * (1 - CHI_PC) ∧
     0 < (healPoint pHealDemo).Gamma ∧
     (healPoint pHealDemo).Gamma < pHealDemo.Gamma) := by
  have hG : pHealDemo.Gamma = 0.5 := by
    show clip (0.5 : ℚ) 0.001 1 = 0.5
    exact clip_eq_self _ _ _ (by norm_num) (by norm_num)
  exact ⟨by rw [hG]; norm_num, by rw [hG]; norm_num,
    C5_heal_strictly_decreases_gamma pHealDemo (by rw [hG]; norm_num)
      (by rw [hG]; norm_num)⟩

/-- C9: the geodesic distance vanishes on the diagonal and is symmetric in its
two arguments (the metric is evaluated at the order-independent midpoint, and
the quadratic form is invariant under negating the displacement). -/
theorem C9_distance_refl_symm :
    (∀ p : ManifoldPoint, MetricTensor.distance p p = 0) ∧
    (∀ p q : ManifoldPoint,
      MetricTensor.distance p q = MetricTensor.distance q p) := by
  have key : ∀ p q : ManifoldPoint,
      MetricTensor.distance_squared p q = MetricTensor.distance_squared q p := by
    intro p q
    unfold MetricTensor.distance_squared
    dsimp only
    rw [add_comm q.to_vector p.to_vector]
    have hdx : p.to_vector - q.to_vector = (-1 : ℚ) • (q.to_vector - p.to_vector) := by
      rw [neg_one_smul, neg_sub]
    rw [hdx, Matrix.mulVec_smul, Matrix.dotProduct_smul, Matrix.smul_dotProduct,
        smul_smul]
    norm_num
  constructor
  · intro p
    have hz : MetricTensor.distance_squared p p = 0 := by
      unfold MetricTensor.distance_squared
      dsimp only
      rw [sub_self]
      exact Matrix.zero_dotProduct _
    unfold MetricTensor.distance
    rw [hz]
    norm_num
  · intro p q
    unfold MetricTensor.distance
    rw [key p q]

/-- C10: point construction by deserialisation never rejects a finite input:
all five bounded coordinates are silently coerced by `np.clip` into their
ranges, while `τ` is stored unchanged — in particular negative `τ` is
accepted as a valid point. -/
theorem C10_construction_clamps_and_accepts_any_tau (v : Vec6) :
    (ManifoldPoint.from_vector v).Valid ∧
    (ManifoldPoint.from_vector v).tau = v 3 ∧
    (ManifoldPoint.from_vector v).Lambda = clip (v 0) 0 1 ∧
    (ManifoldPoint.from_vector v).Phi = clip (v 1) 0 1 ∧
    (ManifoldPoint.from_vector v).Gamma = clip (v 2) 0.001 1 ∧
    (ManifoldPoint.from_vector v).epsilon = clip (v 4) 0 1 ∧
    (ManifoldPoint.from_vector v).psi = clip (v 5) 0 1 :=
  ⟨from_vector_valid v, rfl, rfl, rfl, rfl, rfl, rfl⟩

set_option maxRecDepth 4000 in
/-- C2: at the concrete valid point `pSing` the metric matrix annihilates the
nonzero vector `vKer`, so it is exactly singular (`det = 0`) and has no right
inverse at all: the bare `np.linalg.inv` call in `g_inverse` must fail there —
there is no fallback in the code that could return a finite pseudo-inverse. -/
theorem C2_metric_singular_inversion_must_fail :
    (MetricTensor.g pSing).mulVec vKer = 0 ∧ vKer ≠ 0 ∧
    (MetricTensor.g pSing).det = 0 ∧
    ∀ B : Matrix (Fin 6) (Fin 6) ℚ, MetricTensor.g pSing * B ≠ 1 := by
  have hL : pSing.Lambda = 1 := by
    show clip (1 : ℚ) 0 1 = 1
    exact clip_eq_self _ _ _ (by norm_num) (by norm_num)
  have hP : pSing.Phi = 1000000 / 2176435 := by
    show clip ((1000000 : ℚ) / 2176435) 0 1 = 1000000 / 2176435
    exact clip_eq_self _ _ _ (by norm_num) (by norm_num)
  have hE : pSing.epsilon = 0 := by
    show clip (0 : ℚ) 0 1 = 0
    exact clip_eq_self _ _ _ le_rfl (by norm_num)
  have hmv : (MetricTensor.g pSing).mulVec vKer = 0 := by
    simp [MetricTensor.g, vKer, hL, hP, hE, lambda_phi_coupling,
      epsilon_lambda_coupling, gamma_psi_coupling, LAMBDA_PHI, CHI_PC, GAMMA_FIXED,
      Matrix.cons_mulVec, Matrix.cons_dotProduct_cons, Matrix.dotProduct_empty,
      Matrix.empty_mulVec]
    funext i
    fin_cases i <;>
      simp [Function.comp, cons_val_five] <;>
      norm_num
  have hne : vKer ≠ 0 := by
    intro h
    have h0 := congrFun h 0
    simp [vKer] at h0
  have hdet : (MetricTensor.g pSing).det = 0 :=
    Matrix.exists_mulVec_eq_zero_iff.mp ⟨vKer, hne, hmv⟩
  refine ⟨hmv, hne, hdet, ?_⟩
  intro B hB
  exact absurd hdet (Matrix.det_ne_zero_of_right_inverse hB)

/-- C4 counterexample: with the valid start point `pLam0` (which has `Λ = 0`)
the first element of the returned path is `pLam0` itself, so not every point
of the returned path has its `Λ,Φ,Γ` triple inside `[0.001, 1]`. -/
theorem C4_counterexample_first_point_below_floor :
    (GeodesicSolver.solve nrmAbs pLam0 pGoal 2 1).head? = some pLam0 ∧
    pLam0.Lambda = 0 ∧
    ¬ (∀ p ∈ GeodesicSolver.solve nrmAbs pLam0 pGoal 2 1, 0.001 ≤ p.Lambda) := by
  have hL : pLam0.Lambda = 0 := by
    show clip (0 : ℚ) 0 1 = 0
    exact clip_eq_self _ _ _ le_rfl (by norm_num)
  have hhead : (GeodesicSolver.solve nrmAbs pLam0 pGoal 2 1).head? = some pLam0 := by
    rw [solve_head, valid_from_to pLam0 (make_valid _ _ _ _ _ _)]
  refine ⟨hhead, hL, ?_⟩
  intro hall
  have hmem : pLam0 ∈ GeodesicSolver.solve nrmAbs pLam0 pGoal 2 1 := by
    apply List.mem_of_mem_head?
    rw [hhead]
    rfl
  have := hall pLam0 hmem
  rw [hL] at this
  norm_num at this

/-- C4 amended: for a valid start point and `steps ≥ 1` the solver returns
exactly `steps + 1` points whose first element is `start`; every point after
the first comes out of the per-step clamp, so its `Λ,Φ,Γ` lie in `[0.001,1]`
and `ε,ψ` in `[0,1]`.  The first point only satisfies the construction
invariants: its `Λ` and `Φ` may be below `0.001` (see the counterexample). -/
theorem C4_solve_path_shape (nrm : Vec6 → ℚ) (s g : ManifoldPoint) (n m : ℕ)
    (hs : s.Valid) (hn : 1 ≤ n) :
    (GeodesicSolver.solve nrm s g n m).length = n + 1 ∧
    (GeodesicSolver.solve nrm s g n m).head? = some s ∧
    ∀ p ∈ (GeodesicSolver.solve nrm s g n m).tail,
      0.001 ≤ p.Lambda ∧ p.Lambda ≤ 1 ∧ 0.001 ≤ p.Phi ∧ p.Phi ≤ 1 ∧
      0.001 ≤ p.Gamma ∧ p.Gamma ≤ 1 ∧
      0 ≤ p.epsilon ∧ p.epsilon ≤ 1 ∧ 0 ≤ p.psi ∧ p.psi ≤ 1 := by
  refine ⟨solve_length nrm s g n m, by rw [solve_head, valid_from_to s hs], ?_⟩
  intro p hp
  obtain ⟨y, hy, rfl⟩ := solve_tail_clamped nrm s g n m p hp
  have h0 := (hy 0).1 (by decide)
  have h1 := (hy 1).1 (by decide)
  have h2 := (hy 2).1 (by decide)
  have hLam : (ManifoldPoint.from_vector y).Lambda = y 0 := by
    show clip (y 0) 0 1 = y 0
    exact clip_eq_self _ _ _ (le_trans (by norm_num) h0.1) h0.2
  have hPhi : (ManifoldPoint.from_vector y).Phi = y 1 := by
    show clip (y 1) 0 1 = y 1
    exact clip_eq_self _ _ _ (le_trans (by norm_num) h1.1) h1.2
  have hGam : (ManifoldPoint.from_vector y).Gamma = y 2 := by
    show clip (y 2) 0.001 1 = y 2
    exact clip_eq_self _ _ _ h2.1 h2.2
  obtain ⟨_, _, _, _, _, _, he1, he2, hs1, hs2⟩ := from_vector_valid y
  refine ⟨?_, ?_, ?_, ?_, ?_, ?_, he1, he2, hs1, hs2⟩
  · rw [hLam]; exact h0.1
  · rw [hLam]; exact h0.2
  · rw [hPhi]; exact h1.1
  · rw [hPhi]; exact h1.2
  · rw [hGam]; exact h2.1
  · rw [hGam]; exact h2.2

/-- Witness for the amended C4 at the concrete valid start `pGoal`, two
integration steps and one outer iteration. -/
theorem C4_solve_path_shape_witness :
    pGoal.Valid ∧ 1 ≤ 2 ∧
    ((GeodesicSolver.solve nrmAbs pGoal pLam0 2 1).length = 2 + 1 ∧
     (GeodesicSolver.solve nrmAbs pGoal pLam0 2 1).head? = some pGoal ∧
     ∀ p ∈ (GeodesicSolver.solve nrmAbs pGoal pLam0 2 1).tail,
       0.001 ≤ p.Lambda ∧ p.Lambda ≤ 1 ∧ 0.001 ≤ p.Phi ∧ p.Phi ≤ 1 ∧
       0.001 ≤ p.Gamma ∧ p.Gamma ≤ 1 ∧
       0 ≤ p.epsilon ∧ p.epsilon ≤ 1 ∧ 0 ≤ p.psi ∧ p.psi ≤ 1) :=
  ⟨make_valid _ _ _ _ _ _, by norm_num,
   C4_solve_path_shape nrmAbs pGoal pLam0 2 1 (make_valid _ _ _ _ _ _) (by norm_num)⟩

/-- C6 counterexample: right after `set_target` the agent `agentHotTargeted`
owns a fresh 51-point path with `path_index = 0` (so the path is not
exhausted), yet its first `step()` returns true without advancing
`path_index` — it heals instead, changing the position to a point that is not
the next path point but the healed image of the current one. -/
theorem C6_counterexample_step_heals_instead_of_advancing :
    agentHotTargeted.pathIndex = 0 ∧
    agentHotTargeted.path.length = 51 ∧
    (agentHotTargeted.step 1 0).1 = true ∧
    (agentHotTargeted.step 1 0).2.pathIndex = 0 ∧
    (agentHotTargeted.step 1 0).2.position ≠ agentHotTargeted.position := by
  have hG : pHealDemo.Gamma = 0.5 := by
    show clip (0.5 : ℚ) 0.001 1 = 0.5
    exact clip_eq_self _ _ _ (by norm_num) (by norm_num)
  have hnh : agentHotTargeted.position.NeedsHealing := by
    show (0.3 : ℚ) < pHealDemo.Gamma
    rw [hG]
    norm_num
  have hstep : agentHotTargeted.step 1 0 = (true, agentHotTargeted.heal) := by
    unfold Agent.step
    rw [if_pos hnh]
  refine ⟨rfl, ?_, by rw [hstep], by rw [hstep]; rfl, ?_⟩
  · exact solve_length nrmAbs pHealDemo pGoal 50 50
  · rw [hstep]
    show healPoint pHealDemo ≠ pHealDemo
    intro h
    have hcontra : (healPoint pHealDemo).Gamma = pHealDemo.Gamma :=
      congrArg ManifoldPoint.Gamma h
    have hheal : (healPoint pHealDemo).Gamma = 0.0655 := by
      show clip (pHealDemo.Gamma * (1 - CHI_PC)) 0.001 1 = 0.0655
      rw [hG]
      have : (0.5 : ℚ) * (1 - CHI_PC) = 0.0655 := by norm_num [CHI_PC]
      rw [this]
      exact clip_eq_self _ _ _ (by norm_num) (by norm_num)
    rw [hheal, hG] at hcontra
    norm_num at hcontra

/-- C6 amended: `step()` has three branches.  If the position needs healing
(`Γ > 0.3`) it heals, returns true and leaves `path_index` unchanged;
otherwise, if there is no path or the path is exhausted, it transitions to
`Converged`, returns false and leaves position and `path_index` unchanged;
otherwise it returns true and advances `path_index` by exactly 1. -/
theorem C6_step_branch_semantics (a : Agent) (r : ℚ) (noise : Vec6) :
    (a.position.NeedsHealing →
       a.step r noise = (true, a.heal) ∧ (a.step r noise).2.pathIndex = a.pathIndex) ∧
    (¬ a.position.NeedsHealing → (a.path = [] ∨ a.path.length - 1 ≤ a.pathIndex) →
       a.step r noise = (false, { a with state := .converged }) ∧
       (a.step r noise).2.position = a.position ∧
       (a.step r noise).2.pathIndex = a.pathIndex) ∧
    (¬ a.position.NeedsHealing → ¬ (a.path = [] ∨ a.path.length - 1 ≤ a.pathIndex) →
       (a.step r noise).1 = true ∧ (a.step r noise).2.pathIndex = a.pathIndex + 1) := by
  refine ⟨?_, ?_, ?_⟩
  · intro h
    have hs : a.step r noise = (true, a.heal) := by
      unfold Agent.step
      rw [if_pos h]
    exact ⟨hs, by rw [hs]; rfl⟩
  · intro h1 h2
    have hs : a.step r noise = (false, { a with state := .converged }) := by
      unfold Agent.step
      rw [if_neg h1, if_pos h2]
    exact ⟨hs, by rw [hs], by rw [hs]⟩
  · intro h1 h2
    unfold Agent.step
    rw [if_neg h1, if_neg h2]
    dsimp only
    by_cases hr : r < a.mutationRate
    · rw [if_pos hr]
      exact ⟨rfl, rfl⟩
    · rw [if_neg hr]
      exact ⟨rfl, rfl⟩

/-- Witness for the amended C6: the healthy path-less agent `agentDone` takes
the converge branch. -/
theorem C6_step_branch_semantics_witness :
    ¬ agentDone.position.NeedsHealing ∧
    (agentDone.path = [] ∨ agentDone.path.length - 1 ≤ agentDone.pathIndex) ∧
    (agentDone.step 1 0 = (false, { agentDone with state := .converged }) ∧
     (agentDone.step 1 0).2.position = agentDone.position ∧
     (agentDone.step 1 0).2.pathIndex = agentDone.pathIndex) := by
  have h1 : ¬ agentDone.position.NeedsHealing := by
    show ¬ (0.3 : ℚ) < pGoal.Gamma
    have hg : pGoal.Gamma = 0.1 := by
      show clip (0.1 : ℚ) 0.001 1 = 0.1
      exact clip_eq_self _ _ _ (by norm_num) (by norm_num)
    rw [hg]
    norm_num
  have h2 : agentDone.path = [] ∨ agentDone.path.length - 1 ≤ agentDone.pathIndex :=
    Or.inl rfl
  exact ⟨h1, h2, (C6_step_branch_semantics agentDone 1 0).2.1 h1 h2⟩

/-- C7: one coupled step updates the two positions symmetrically from the
named pre-coupling state (`preCoupling`, the agents' positions after the
observe / react / evolve sub-steps and before the coupling): the same
displacement term `c • (pos_B - pos_A)`, computed once from those pre-update
positions, is added to AURA's position and subtracted from AIDEN's, and the
returned value is `exp(-distance)` of the two post-coupling positions. -/
theorem C7_coupling_pre_update_symmetric_and_sync (nrm : Vec6 → ℚ) (s : AURAIDENSystem) :
    (AURAIDENSystem.coupled_step nrm s).2.aura.agent.position =
      ManifoldPoint.from_vector
        ((AURAIDENSystem.preCoupling nrm s).aura.agent.position.to_vector +
          (s.coupling_strength * 0.1) •
            ((AURAIDENSystem.preCoupling nrm s).aiden.position.to_vector -
             (AURAIDENSystem.preCoupling nrm s).aura.agent.position.to_vector)) ∧
    (AURAIDENSystem.coupled_step nrm s).2.aiden.position =
      ManifoldPoint.from_vector
        ((AURAIDENSystem.preCoupling nrm s).aiden.position.to_vector -
          (s.coupling_strength * 0.1) •
            ((AURAIDENSystem.preCoupling nrm s).aiden.position.to_vector -
             (AURAIDENSystem.preCoupling nrm s).aura.agent.position.to_vector)) ∧
    (AURAIDENSystem.coupled_step nrm s).2 =
      { (AURAIDENSystem.preCoupling nrm s).apply_coupling with
        synchronization_history :=
          (AURAIDENSystem.preCoupling nrm s).apply_coupling.synchronization_history ++
            [(AURAIDENSystem.coupled_step nrm s).1] } ∧
    (AURAIDENSystem.coupled_step nrm s).1 =
      Real.exp (-(MetricTensor.distance
        (AURAIDENSystem.coupled_step nrm s).2.aura.agent.position
        (AURAIDENSystem.coupled_step nrm s).2.aiden.position)) :=
  ⟨rfl, rfl, rfl, rfl⟩

/-- The Sinkhorn loop of the source is the `k`-fold iterate of the one-pass
scaling update. -/
theorem sinkhornLoop_eq_iterate {n m : ℕ} (K : Matrix (Fin n) (Fin m) ℝ)
    (sw : Fin n → ℝ) (tw : Fin m → ℝ) :
    ∀ (k : ℕ) (uv : (Fin n → ℝ) × (Fin m → ℝ)),
      sinkhornLoop K sw tw k uv = (sinkhornStepSpec K sw tw)^[k] uv := by
  intro k
  induction k with
  | zero => intro uv; rfl
  | succ j ih =>
    intro uv
    show sinkhornLoop K sw tw j (sinkhornStepSpec K sw tw uv) = _
    rw [ih, Function.iterate_succ_apply]

/-- C8: `w2_distance` computes exactly the value described by the spec — the
squared-distance cost matrix, kernel `exp(-C/0.1)`, precisely 100 alternating
Sinkhorn updates from all-ones scalings with no convergence check, plan
`diag(u)·K·diag(v)` and result `sqrt(Σ P∘C)`. -/
theorem C8_w2_distance_is_fixed_100_iteration_sinkhorn {n m : ℕ}
    (sp : Fin n → ManifoldPoint) (sw : Fin n → ℝ)
    (tp : Fin m → ManifoldPoint) (tw : Fin m → ℝ) :
    WassersteinTransport.w2_distance sp sw tp tw = w2SpecValue sp sw tp tw := by
  unfold WassersteinTransport.w2_distance w2SpecValue
  dsimp only
  rw [sinkhornLoop_eq_iterate]
  congr 1
  apply Finset.sum_congr rfl
  intro i _
  apply Finset.sum_congr rfl
  intro j _
  rw [Matrix.mul_diagonal, Matrix.diagonal_mul]
